import Mathlib

/-!
# vladsf/bot1: image relay bot and grayscale processing server

A shallow embedding of `cmd/blackandwhite/main.go` (the processing server) and
of the parts of `cmd/bot/main.go` (the relay bot) that carry state: the bearer
check, the identifier sanitizer, the artifact directory with its retention
sweep, the request counter, the user registry and the relay's upload/fetch
sequence.

Conventions.
* Strings are Lean strings; a Go rune is a `Char`.
* A point in time is an `Int` number of nanoseconds, a `time.Duration` too.
* `requestCounter` is a `uint64`: a `Nat` below `2 ^ 64`, additions wrap.
* The directory `tempDir` is a list of entries `(name, file)`; for a name
  without a path separator, `filepath.Join(tempDir, name)` denotes the entry
  called `name` of that directory.
* What the program takes from its surroundings (the clock, the random
  identifier, the image codec, failing system calls) is an explicit argument.
-/

namespace Bot1

/-! ## Byte strings, headers and query values -/

/-- A byte string. -/
abbrev Bytes := List Nat

/-- Multi-valued string map, the shape of `http.Header` and `url.Values`. -/
abbrev Values := List (String × List String)

/-- Go `Values.Get` / `Header.Get`: the first value stored under `key`, or `""`. -/
def Values.Get (v : Values) (key : String) : String :=
  match v.lookup key with
  | some (x :: _) => x
  | _ => ""

/-! ## The regular expression of `sanitizeUUIDQueryParam` -/

/-- A bracket expression: a list of inclusive rune ranges, possibly negated. -/
structure CharClass where
  negated : Bool
  ranges : List (Char × Char)

/-- Whether a rune is matched by the bracket expression. -/
def CharClass.matchesRune (cc : CharClass) (c : Char) : Bool :=
  cc.negated != cc.ranges.any (fun r => decide (r.1 ≤ c) && decide (c ≤ r.2))

/-- The pattern `[^a-fA-F0-9-]` compiled in `sanitizeUUIDQueryParam`. -/
def uuidRe : CharClass :=
  { negated := true, ranges := [('a', 'f'), ('A', 'F'), ('0', '9'), ('-', '-')] }

/-- Scan of `Regexp.ReplaceAllString` for a pattern that is one bracket
expression: every match is a single rune, it is replaced by `repl`, and the
runes between matches are copied. -/
def replaceAllRunes (re : CharClass) (repl : List Char) : List Char → List Char
  | [] => []
  | c :: cs =>
    if re.matchesRune c then repl ++ replaceAllRunes re repl cs
    else c :: replaceAllRunes re repl cs

/-- Go `re.ReplaceAllString(src, repl)` for a one-bracket pattern and a
replacement without `$` references. -/
def ReplaceAllString (re : CharClass) (src repl : String) : String :=
  String.mk (replaceAllRunes re repl.data src.data)

/-- Go `sanitizeUUIDQueryParam(query, paramName)`. -/
def sanitizeUUIDQueryParam (query : Values) (paramName : String) : String :=
  let value := query.Get paramName
  if value = "" then ""
  else
    let sanitized := ReplaceAllString uuidRe value ""
    sanitized

/-- The alphabet `[a-fA-F0-9-]` the spec speaks of. -/
def inUUIDAlphabet (c : Char) : Bool :=
  (decide ('a' ≤ c) && decide (c ≤ 'f')) || (decide ('A' ≤ c) && decide (c ≤ 'F'))
    || (decide ('0' ≤ c) && decide (c ≤ '9')) || c == '-'

/-! ## The response writer -/

/-- One `Write` to a response body: text or raw bytes. -/
inductive Chunk where
  | text (s : String)
  | raw (b : Bytes)
deriving DecidableEq, Repr

/-- The observable state of an `http.ResponseWriter`: the header map, the
status line once it has been sent, and the writes made to the body. -/
structure ResponseWriter where
  header : List (String × String)
  status : Option Nat
  body : List Chunk
deriving DecidableEq, Repr

/-- A fresh response writer. -/
def ResponseWriter.fresh : ResponseWriter := { header := [], status := none, body := [] }

/-- Go `w.Header().Del(key)`. -/
def ResponseWriter.Del (w : ResponseWriter) (key : String) : ResponseWriter :=
  { w with header := w.header.filter (fun e => e.1 != key) }

/-- Go `w.Header().Set(key, value)`. -/
def ResponseWriter.Set (w : ResponseWriter) (key value : String) : ResponseWriter :=
  { w with header := w.header.filter (fun e => e.1 != key) ++ [(key, value)] }

/-- Go `w.WriteHeader(code)`: only the first call sends a status line. -/
def ResponseWriter.WriteHeader (w : ResponseWriter) (code : Nat) : ResponseWriter :=
  match w.status with
  | none => { w with status := some code }
  | some _ => w

/-- Go `w.Write(chunk)`: sends status 200 first when no status was sent yet. -/
def ResponseWriter.Write (w : ResponseWriter) (c : Chunk) : ResponseWriter :=
  let w1 := w.WriteHeader 200
  { w1 with body := w1.body ++ [c] }

/-- The status code the client receives: 200 when the handler sent none. -/
def ResponseWriter.statusCode (w : ResponseWriter) : Nat := w.status.getD 200

def StatusOK : Nat := 200
def StatusBadRequest : Nat := 400
def StatusUnauthorized : Nat := 401
def StatusNotFound : Nat := 404
def StatusMethodNotAllowed : Nat := 405
def StatusInternalServerError : Nat := 500

/-- Go `http.Error(w, msg, code)`. -/
def httpError (w : ResponseWriter) (msg : String) (code : Nat) : ResponseWriter :=
  let w1 := w.Del "Content-Length"
  let w2 := w1.Set "Content-Type" "text/plain; charset=utf-8"
  let w3 := w2.Set "X-Content-Type-Options" "nosniff"
  let w4 := w3.WriteHeader code
  w4.Write (Chunk.text (msg ++ "\n"))

/-- Go `jsonResponse(w, data)`, with `data` given by its JSON text. Encoding the
two response structs of the server cannot fail. -/
def jsonResponse (w : ResponseWriter) (json : String) : ResponseWriter :=
  let w1 := w.Set "Content-Type" "application/json"
  w1.Write (Chunk.text (json ++ "\n"))

/-! ## The artifact directory -/

/-- A regular file: modification time and content. -/
structure File where
  modTime : Int
  data : Bytes
deriving DecidableEq, Repr

/-- The entries of the directory `tempDir`. -/
abbrev Dir := List (String × File)

/-- System calls that fail for a reason other than a missing entry. -/
structure Faults where
  readDir : Bool
  stat : String → Bool
  openFile : String → Bool
  create : String → Bool
  remove : String → Bool

/-- No system call fails. -/
def Faults.none : Faults :=
  { readDir := false, stat := fun _ => false, openFile := fun _ => false,
    create := fun _ => false, remove := fun _ => false }

/-- Outcome of `os.Stat`. -/
inductive StatResult where
  | info (f : File)
  | notExist
  | failed
deriving DecidableEq, Repr

/-- Go `os.Stat(filepath.Join(tempDir, name))`. -/
def osStat (ft : Faults) (dir : Dir) (name : String) : StatResult :=
  if ft.stat name then StatResult.failed
  else
    match dir.lookup name with
    | some f => StatResult.info f
    | none => StatResult.notExist

/-- Go `os.Open(filepath.Join(tempDir, name))` followed by reading the file. -/
def osOpen (ft : Faults) (dir : Dir) (name : String) : Option Bytes :=
  if ft.openFile name then none
  else (dir.lookup name).map (fun f => f.data)

/-- Go `os.Create(filepath.Join(tempDir, name))` at time `now`: a new empty file,
or the existing one truncated. -/
def osCreate (ft : Faults) (dir : Dir) (name : String) (now : Int) : Option Dir :=
  if ft.create name then none
  else
    match dir.lookup name with
    | some _ =>
      some (dir.map (fun e => if e.1 = name then (e.1, { modTime := now, data := [] }) else e))
    | none => some (dir ++ [(name, { modTime := now, data := [] })])

/-- Appending `bytes` to the open file `name` at time `now`. -/
def fileWrite (dir : Dir) (name : String) (bytes : Bytes) (now : Int) : Dir :=
  dir.map (fun e => if e.1 = name then (e.1, { modTime := now, data := e.2.data ++ bytes }) else e)

/-- Go `os.Remove(filepath.Join(tempDir, name))`. -/
def osRemove (ft : Faults) (dir : Dir) (name : String) : Option Dir :=
  if ft.remove name then none
  else
    match dir.lookup name with
    | some _ => some (dir.filter (fun e => e.1 != name))
    | none => none

/-- Go `os.ReadDir(tempDir)`: the entry names, sorted by name. -/
def osReadDir (ft : Faults) (dir : Dir) : Option (List String) :=
  if ft.readDir then none
  else some ((dir.map Prod.fst).insertionSort (fun a b => a ≤ b))

/-- Go `getNumberOfFiles(tempDir)`: the count and whether an error is returned. -/
def getNumberOfFiles (ft : Faults) (dir : Dir) : Nat × Bool :=
  match osReadDir ft dir with
  | none => (0, true)
  | some files => (files.length, false)

/-! ## The image codec and the identifier generator -/

/-- Where `jpeg.Encode` writes to. -/
inductive Sink where
  | file
  | response
deriving DecidableEq, Repr

/-- The image library as the server uses it. `decode` is `image.Decode`
(`none` on error), `grayscale` is `imaging.Grayscale`, and `encode sink img` is
`jpeg.Encode(sink, img, nil)`: the bytes that reached the sink and whether the
call returned without error. -/
structure Codec where
  Image : Type
  decode : Bytes → Option Image
  grayscale : Image → Image
  encode : Sink → Image → Bytes × Bool

/-- The sixteen bytes of a `uuid.UUID`. -/
structure UUID where
  bytes : List Nat

/-- The lower-case hexadecimal digit of a value below sixteen. -/
def hexDigit (n : Nat) : Char :=
  "0123456789abcdef".data.getD n '0'

/-- Go `hex.Encode`: two lower-case digits per byte. -/
def hexEncode : List Nat → List Char
  | [] => []
  | b :: bs => hexDigit (b / 16 % 16) :: hexDigit (b % 16) :: hexEncode bs

/-- Go `UUID.String()`: the form `xxxxxxxx-xxxx-xxxx-xxxx-xxxxxxxxxxxx`. -/
def UUID.String (u : UUID) : String :=
  String.mk (hexEncode (u.bytes.take 4) ++ '-' :: hexEncode ((u.bytes.drop 4).take 2)
    ++ '-' :: hexEncode ((u.bytes.drop 6).take 2) ++ '-' :: hexEncode ((u.bytes.drop 8).take 2)
    ++ '-' :: hexEncode ((u.bytes.drop 10).take 6))

/-! ## The processing server -/

/-- An incoming request as the handlers read it: method, clean path, headers,
the parsed query and the outcome of `ParseMultipartForm` (`none` when the body
is not a multipart form, else the uploaded files by field name). -/
structure Request where
  method : String
  path : String
  header : Values
  query : Values
  form : Option (List (String × Bytes))

/-- What one request takes from its surroundings: the clock, the identifier
drawn by `uuid.New()`, and the system calls that fail while it is served. -/
structure Ctx where
  now : Int
  uuid : UUID
  faults : Faults

/-- The mutable state of the server process: `requestCounter` and the content
of `tempDir`. -/
structure Server where
  requestCounter : Nat
  dir : Dir

/-- A handler: `func(w http.ResponseWriter, r *http.Request)` over the server
state. -/
abbrev HandlerFunc := Ctx → Server → ResponseWriter → Request → Server × ResponseWriter

/-- Go `atomic.AddUint64(&requestCounter, 1)`. -/
def addUint64 (c delta : Nat) : Nat := (c + delta) % 2 ^ 64

/-- Go `authMiddleware(next)` for the configured `apiToken`. -/
def authMiddleware (apiToken : String) (next : HandlerFunc) : HandlerFunc :=
  fun c s w r =>
    let token := r.header.Get "Authorization"
    if token = "" ∨ token ≠ "Bearer " ++ apiToken then
      (s, httpError w "Unauthorized" StatusUnauthorized)
    else
      let s1 := { s with requestCounter := addUint64 s.requestCounter 1 }
      next c s1 w r

/-- Go `convertToBlackAndWhite(input, output)`: the bytes written to `output` and
the error, if any. -/
def convertToBlackAndWhite (cx : Codec) (input : Bytes) : Bytes × Option String :=
  match cx.decode input with
  | none => ([], some "failed to decode image")
  | some img =>
    let grayImg := cx.grayscale img
    match cx.encode Sink.file grayImg with
    | (out, false) => (out, some "failed to encode and save image")
    | (out, true) => (out, none)

/-- JSON text of `ImageResponse{ID: id}`, for an id that needs no escaping. -/
def imageResponseJSON (id : String) : String :=
  "\x7b\"id\":\"" ++ id ++ "\"\x7d"

/-- JSON text of `Stats`. -/
def statsJSON (totalRequests tempFilesCount : Nat) : String :=
  "\x7b\"total_requests\":" ++ toString totalRequests ++ ",\"temp_files_count\":"
    ++ toString tempFilesCount ++ "\x7d"

/-- Go `imageHandler`. -/
def imageHandler (cx : Codec) : HandlerFunc :=
  fun c s w r =>
    match r.form with
    | none => (s, httpError w "Failed to parse multipart form" StatusBadRequest)
    | some files =>
      match files.lookup "file" with
      | none => (s, httpError w "Failed to retrieve file" StatusBadRequest)
      | some file =>
        let id := c.uuid.String
        let tempFilePath := id ++ ".jpg"
        match osCreate c.faults s.dir tempFilePath c.now with
        | none => (s, httpError w "Failed to create temporary file" StatusInternalServerError)
        | some dir1 =>
          match convertToBlackAndWhite cx file with
          | (out, some _) =>
            ({ s with dir := fileWrite dir1 tempFilePath out c.now },
              httpError w "Failed to convert image" StatusInternalServerError)
          | (out, none) =>
            ({ s with dir := fileWrite dir1 tempFilePath out c.now },
              jsonResponse w (imageResponseJSON id))

/-- The name of the entry of `tempDir` that `getImageHandler` looks up. -/
def lookupName (r : Request) : String :=
  sanitizeUUIDQueryParam r.query "id" ++ ".jpg"

/-- Go `getImageHandler`. -/
def getImageHandler (cx : Codec) : HandlerFunc :=
  fun c s w r =>
    let imageID := sanitizeUUIDQueryParam r.query "id"
    let tempFilePath := imageID ++ ".jpg"
    if osStat c.faults s.dir tempFilePath = StatResult.notExist then
      (s, httpError w "Image not found" StatusNotFound)
    else
      match osOpen c.faults s.dir tempFilePath with
      | none => (s, httpError w "Failed to open image file" StatusInternalServerError)
      | some imgFile =>
        match cx.decode imgFile with
        | none => (s, httpError w "Failed to decode image" StatusInternalServerError)
        | some img =>
          let w1 := w.Set "Content-Type" "image/jpeg"
          match cx.encode Sink.response img with
          | (out, true) => (s, w1.Write (Chunk.raw out))
          | (out, false) =>
            let w2 := if out = [] then w1 else w1.Write (Chunk.raw out)
            (s, httpError w2 "Failed to encode image" StatusInternalServerError)

/-- Go `statsHandler`. -/
def statsHandler : HandlerFunc :=
  fun c s w _ =>
    let numFiles := (getNumberOfFiles c.faults s.dir).1
    (s, jsonResponse w (statsJSON s.requestCounter numFiles))

/-- Whether a registered method pattern accepts the request method: a `GET`
pattern also accepts `HEAD`. -/
def methodMatches (patternMethod requestMethod : String) : Bool :=
  requestMethod == patternMethod || (patternMethod == "GET" && requestMethod == "HEAD")

/-- The server's `ServeMux` with the three patterns registered in `main`:
`POST /image`, `GET /image` and `GET /stats`, for a request path in clean
form. A request that matches no pattern is answered by the mux itself and
reaches no handler. -/
def serve (apiToken : String) (cx : Codec) : HandlerFunc :=
  fun c s w r =>
    if r.path = "/image" then
      if methodMatches "POST" r.method then authMiddleware apiToken (imageHandler cx) c s w r
      else if methodMatches "GET" r.method then
        authMiddleware apiToken (getImageHandler cx) c s w r
      else (s, httpError w "Method Not Allowed" StatusMethodNotAllowed)
    else if r.path = "/stats" then
      if methodMatches "GET" r.method then statsHandler c s w r
      else (s, httpError w "Method Not Allowed" StatusMethodNotAllowed)
    else (s, httpError w "404 page not found" StatusNotFound)

/-- The server handling a sequence of requests one after the other, each with
a fresh response writer; the state after the last one. -/
def serveAll (apiToken : String) (cx : Codec) (s : Server) : List (Ctx × Request) → Server
  | [] => s
  | (c, r) :: rest =>
    serveAll apiToken cx (serve apiToken cx c s ResponseWriter.fresh r).1 rest

/-- Whether a request passes the bearer check of `authMiddleware`. -/
def passesBearerCheck (apiToken : String) (r : Request) : Bool :=
  !(decide (r.header.Get "Authorization" = "")
    || decide (r.header.Get "Authorization" ≠ "Bearer " ++ apiToken))

/-- Whether the mux routes a request to one of the two patterns wrapped in
`authMiddleware`. -/
def onAuthenticatedRoute (r : Request) : Bool :=
  decide (r.path = "/image") && (methodMatches "POST" r.method || methodMatches "GET" r.method)

/-- Whether a request is counted: routed to an authenticated pattern and
passing the bearer check. -/
def counted (apiToken : String) (cr : Ctx × Request) : Bool :=
  onAuthenticatedRoute cr.2 && passesBearerCheck apiToken cr.2

/-! ## The retention sweep -/

/-- Go `time.Hour` in nanoseconds. -/
def Hour : Int := 3600 * 1000000000

/-- The body of the inner loop of `cleanupOldFiles` for one directory entry. -/
def cleanupFile (ft : Faults) (cutoff : Int) (dir : Dir) (name : String) : Dir :=
  match osStat ft dir name with
  | StatResult.info info =>
    if info.modTime < cutoff then
      match osRemove ft dir name with
      | some dir1 => dir1
      | none => dir
    else dir
  | _ => dir

/-- One pass of the outer loop of `cleanupOldFiles`, woken up at time `now`. -/
def cleanupPass (ft : Faults) (now : Int) (dir : Dir) : Dir :=
  match osReadDir ft dir with
  | none => dir
  | some files =>
    let cutoff := now + -24 * Hour
    files.foldl (cleanupFile ft cutoff) dir

/-- The passes of `cleanupOldFiles` at the given wake-up times (the loop never
ends, this is a finite stretch of it). -/
def cleanupOldFiles (ft : Faults) (wakeups : List Int) (dir : Dir) : Dir :=
  wakeups.foldl (fun d now => cleanupPass ft now d) dir

/-! ## The user registry of the bot -/

/-- The sender of a chat update (`tele.User`), as far as the bot reads it. -/
structure TeleUser where
  ID : Int
  FirstName : String
  Username : String
  IsBot : Bool
deriving DecidableEq, Repr

/-- A registry record. -/
structure User where
  Username : String
  IsBot : Bool
  CreatedAt : Int
deriving DecidableEq, Repr

/-- The content of the `sync.Map` called `Users`: records by user id. -/
abbrev UserMap := List (Int × User)

/-- Go `Users.Load(id)`. -/
def UserMap.Load (users : UserMap) (id : Int) : Option User := users.lookup id

/-- Go `Users.Store(id, user)`: replaces the record of `id` or adds one. -/
def UserMap.Store (users : UserMap) (id : Int) (user : User) : UserMap :=
  match users.lookup id with
  | some _ => users.map (fun e => if e.1 = id then (e.1, user) else e)
  | none => users ++ [(id, user)]

/-- Go `storeUser(user)` called at time `now`. -/
def storeUser (users : UserMap) (user : TeleUser) (now : Int) : UserMap :=
  match users.Load user.ID with
  | some _ => users
  | none =>
    let newUser : User := { Username := user.Username, IsBot := user.IsBot, CreatedAt := now }
    users.Store user.ID newUser

/-- The `/start` handler: the registry afterwards and the message sent. -/
def startHandler (users : UserMap) (sender : Option TeleUser) (now : Int) : UserMap × String :=
  match sender with
  | some user =>
    let welcomeMessage := "Welcome, " ++ user.FirstName ++ "!"
    (storeUser users user now, welcomeMessage)
  | none => (users, "Welcome!")

/-- The `created_at` of a user id in the registry. -/
def createdAt (users : UserMap) (id : Int) : Option Int :=
  (users.Load id).map (fun u => u.CreatedAt)

/-! ## The relay client -/

/-- A request as the relay builds it: method, URL split into the server base,
path and raw query, headers, and the files of the multipart body. -/
structure ClientRequest where
  method : String
  base : String
  path : String
  rawQuery : String
  header : Values
  files : Option (List (String × Bytes))

/-- A response as the relay reads it. -/
structure ClientResponse where
  statusCode : Nat
  status : String
  body : List Chunk

/-- What `processImage` takes from its surroundings. `readFile` is `os.Open`
(`none` on error) followed by the read of `io.Copy` (`some none` on error);
`validURL` tells whether `http.NewRequest` accepts a URL; `decodeID` is the
JSON decoding of the submit response into its `id` field; `send` is
`client.Do` over a network in state `σ`. -/
structure RelayEnv (σ : Type) where
  imageProcessingServerURL : String
  imageProcessingAPIToken : String
  readFile : String → Option (Option Bytes)
  validURL : String → Bool
  contentType : String
  decodeID : List Chunk → Option String
  send : σ → ClientRequest → σ × Option ClientResponse

/-- The optional `Authorization` header of the relay's requests. -/
def withToken (token : String) (header : Values) : Values :=
  if token ≠ "" then header ++ [("Authorization", ["Bearer " ++ token])] else header

/-- Go `processImage(filePath)`: the network state afterwards, the requests that
were handed to `client.Do` in order, and the result. The multipart form is
written to an in-memory buffer, which does not fail; error texts are given
without the wrapped cause. -/
def processImage {σ : Type} (env : RelayEnv σ) (net : σ) (filePath : String) :
    σ × List ClientRequest × Except String (List Chunk) :=
  match env.readFile filePath with
  | none => (net, [], Except.error "failed to open file")
  | some none => (net, [], Except.error "failed to copy file content")
  | some (some content) =>
    if !env.validURL (env.imageProcessingServerURL ++ "/image") then
      (net, [], Except.error "failed to create request")
    else
      let req1 : ClientRequest :=
        { method := "POST", base := env.imageProcessingServerURL, path := "/image",
          rawQuery := "",
          header := withToken env.imageProcessingAPIToken [("Content-Type", [env.contentType])],
          files := some [("file", content)] }
      match env.send net req1 with
      | (net1, none) => (net1, [req1], Except.error "failed to send request")
      | (net1, some resp1) =>
        if resp1.statusCode ≠ StatusOK then
          (net1, [req1], Except.error ("server returned non-200 status: " ++ resp1.status))
        else
          match env.decodeID resp1.body with
          | none => (net1, [req1], Except.error "failed to decode response")
          | some id =>
            if !env.validURL (env.imageProcessingServerURL ++ "/image?id=" ++ id) then
              (net1, [req1], Except.error "failed to create request")
            else
              let req2 : ClientRequest :=
                { method := "GET", base := env.imageProcessingServerURL, path := "/image",
                  rawQuery := "id=" ++ id,
                  header := withToken env.imageProcessingAPIToken [],
                  files := none }
              match env.send net1 req2 with
              | (net2, none) => (net2, [req1, req2], Except.error "failed to send request")
              | (net2, some resp2) =>
                if resp2.statusCode ≠ StatusOK then
                  (net2, [req1, req2],
                    Except.error ("server returned non-200 status: " ++ resp2.status))
                else (net2, [req1, req2], Except.ok resp2.body)

/-- Go `http.StatusText` for the codes the server sends. -/
def StatusText (code : Nat) : String :=
  if code = 200 then "OK"
  else if code = 400 then "Bad Request"
  else if code = 401 then "Unauthorized"
  else if code = 404 then "Not Found"
  else if code = 405 then "Method Not Allowed"
  else if code = 500 then "Internal Server Error"
  else ""

/-- The relay's network when it is wired to the processing server: the server
state and, for each request still to be sent, either the surroundings in which
the server handles it or `none` when the transport fails. -/
structure Wire where
  server : Server
  arrivals : List (Option Ctx)

/-- Go `client.Do` against the processing server configured with `apiToken`;
`parseQuery` is `url.ParseQuery`. -/
def sendToServer (apiToken : String) (cx : Codec) (parseQuery : String → Values)
    (net : Wire) (req : ClientRequest) : Wire × Option ClientResponse :=
  match net.arrivals with
  | [] => (net, none)
  | none :: rest => ({ net with arrivals := rest }, none)
  | some c :: rest =>
    let r : Request :=
      { method := req.method, path := req.path, header := req.header,
        query := parseQuery req.rawQuery, form := req.files }
    let out := serve apiToken cx c net.server ResponseWriter.fresh r
    ({ server := out.1, arrivals := rest },
      some { statusCode := out.2.statusCode,
             status := toString out.2.statusCode ++ " " ++ StatusText out.2.statusCode,
             body := out.2.body })

/-! ## Auxiliary notions for the statements -/

/-- Whether the entry `name` of `dir` exists with a modification time before
`cutoff`. -/
def expired (cutoff : Int) (dir : Dir) (name : String) : Bool :=
  match dir.lookup name with
  | some f => decide (f.modTime < cutoff)
  | none => false

/-- Faults under which only `os.Open` fails. -/
def openFails : Faults := { Faults.none with openFile := fun _ => true }

/-- A request context at time `now` in which `os.Open` fails. -/
def openFailsCtx (now : Int) : Ctx :=
  { now := now, uuid := { bytes := [] }, faults := openFails }

/-- A registry in which the user id 7 was registered at time 1. -/
def registeredAlice : UserMap := [(7, { Username := "alice", IsBot := false, CreatedAt := 1 })]

/-- Faults under which only `os.ReadDir` fails. -/
def readDirFails : Faults := { Faults.none with readDir := true }

/-! ## Concrete surroundings used to run the definitions -/

/-- A codec on which the definitions can be run: an image is its own non-empty
byte string, gray-scaling keeps it, encoding always succeeds. -/
def plainCodec : Codec :=
  { Image := Bytes
    decode := fun b => if b = [] then none else some b
    grayscale := fun img => img
    encode := fun _ img => (img, true) }

/-- A request context at time `now` with identifier bytes `bs` and no failing
system call. -/
def plainCtx (now : Int) (bs : List Nat) : Ctx :=
  { now := now, uuid := { bytes := bs }, faults := Faults.none }

/-- A server state with counter zero and the given directory. -/
def serverWith (dir : Dir) : Server := { requestCounter := 0, dir := dir }

/-- A directory with a single one-byte file. -/
def oneFile (name : String) : Dir := [(name, { modTime := 0, data := [1] })]

/-- A directory with a file of age 25 hours and one of age exactly 24 hours
at time `25 * Hour`. -/
def twoFiles : Dir :=
  [("old.jpg", { modTime := 0, data := [1] }), ("new.jpg", { modTime := Hour, data := [2] })]

/-- Sixteen identifier bytes. -/
def sampleUUID : List Nat := [18, 52, 86, 120, 154, 188, 222, 240, 1, 35, 69, 103, 137, 171, 205, 239]

/-- Two chat users with the same id, and a third one. -/
def alice : TeleUser := { ID := 7, FirstName := "Al", Username := "alice", IsBot := false }

def aliceRenamed : TeleUser := { ID := 7, FirstName := "Al", Username := "al2", IsBot := false }

/-- A registry holding one other user. -/
def oneUser : UserMap := [(3, { Username := "bob", IsBot := false, CreatedAt := 1 })]

/-- As many authorized `GET /image` requests as a `uint64` has values. -/
def manyRequests : List (Ctx × Request) :=
  List.replicate (2 ^ 64)
    (({ now := 0, uuid := { bytes := [] }, faults := Faults.none } : Ctx),
      ({ method := "GET", path := "/image", header := [("Authorization", ["Bearer t"])],
         query := [("id", [""])], form := none } : Request))

/-- A relay left at its defaults (no token), wired to a server configured with
`apiToken`; every file reads as one byte. -/
def defaultRelay (apiToken : String) : RelayEnv Wire :=
  { imageProcessingServerURL := "http://localhost:8080"
    imageProcessingAPIToken := ""
    readFile := fun _ => some (some [1])
    validURL := fun _ => true
    contentType := "multipart/form-data"
    decodeID := fun _ => none
    send := sendToServer apiToken plainCodec (fun _ => []) }

/-- A network on which the server cannot be reached. -/
def serverDown : Wire := { server := serverWith [], arrivals := [none] }

/-- A network on which the server answers the next two requests. -/
def serverUp : Wire :=
  { server := serverWith [], arrivals := [some (plainCtx 0 sampleUUID), some (plainCtx 1 [])] }

/-- The submit request `processImage` builds for a file content. -/
def submitRequest {σ : Type} (env : RelayEnv σ) (content : Bytes) : ClientRequest :=
  { method := "POST", base := env.imageProcessingServerURL, path := "/image", rawQuery := "",
    header := withToken env.imageProcessingAPIToken [("Content-Type", [env.contentType])],
    files := some [("file", content)] }

/-- The error `processImage` returns when its submit request is not answered
with status 200: the transport error or the non-200 error. -/
def submitFailure (resp : Option ClientResponse) : Except String (List Chunk) :=
  match resp with
  | none => Except.error "failed to send request"
  | some r1 => Except.error ("server returned non-200 status: " ++ r1.status)

/-- The error text of `processImage` for a response with the given status
line. -/
def non200 (status : String) : String := "server returned non-200 status: " ++ status

/-- A `GET /image?id=...` request carrying the given `Authorization` value. -/
def getRequest (auth id : String) : Request :=
  { method := "GET", path := "/image", header := [("Authorization", [auth])],
    query := [("id", [id])], form := none }

/-- A `POST /image` request uploading `file` under the field `file`. -/
def postRequest (auth : String) (file : Bytes) : Request :=
  { method := "POST", path := "/image", header := [("Authorization", [auth])],
    query := [], form := some [("file", file)] }

/-! ## Theorems -/

/-! ### The sanitizer -/

theorem uuidRe_matchesRune (c : Char) : uuidRe.matchesRune c = !inUUIDAlphabet c := by
  simp only [CharClass.matchesRune, uuidRe, inUUIDAlphabet, List.any_cons, List.any_nil,
    Bool.or_false]
  have h : (decide ('-' ≤ c) && decide (c ≤ '-')) = (c == '-') := by
    by_cases hc : c = '-'
    · subst hc; decide
    · have h1 : (c == '-') = false := by simpa using hc
      rw [h1]
      by_cases h2 : '-' ≤ c
      · have h3 : ¬ c ≤ '-' := fun h3 => hc (Char.le_antisymm h3 h2)
        simp [h3]
      · simp [h2]
  rw [h]
  cases (decide ('a' ≤ c) && decide (c ≤ 'f')) <;> cases (decide ('A' ≤ c) && decide (c ≤ 'F'))
    <;> cases (decide ('0' ≤ c) && decide (c ≤ '9')) <;> cases (c == '-') <;> rfl

theorem replaceAllRunes_uuidRe (cs : List Char) :
    replaceAllRunes uuidRe [] cs = cs.filter inUUIDAlphabet := by
  induction cs with
  | nil => rfl
  | cons c cs ih =>
    simp only [replaceAllRunes, uuidRe_matchesRune, List.filter_cons, ih]
    cases inUUIDAlphabet c <;> simp

theorem sanitize_data (query : Values) (paramName : String) :
    (sanitizeUUIDQueryParam query paramName).data
      = (query.Get paramName).data.filter inUUIDAlphabet := by
  unfold sanitizeUUIDQueryParam
  by_cases h : query.Get paramName = ""
  · simp [h]
  · simp only [h, if_false, ReplaceAllString]
    exact replaceAllRunes_uuidRe _

/-- C2: `sanitizeUUIDQueryParam` returns the query value with exactly the
characters outside `[a-fA-F0-9-]` removed, the others kept in order; the
result has only characters of the alphabet and is empty for an empty or
missing value. -/
theorem sanitizeUUIDQueryParam_filters (query : Values) (paramName : String) :
    (sanitizeUUIDQueryParam query paramName).data
        = (query.Get paramName).data.filter inUUIDAlphabet
      ∧ (sanitizeUUIDQueryParam query paramName).data.all inUUIDAlphabet = true
      ∧ (query.Get paramName = "" → sanitizeUUIDQueryParam query paramName = "")
      ∧ (query.lookup paramName = none → sanitizeUUIDQueryParam query paramName = "") := by
  refine ⟨sanitize_data query paramName, ?_, ?_, ?_⟩
  · rw [sanitize_data]
    simp [List.all_eq_true]
  · intro h
    simp [sanitizeUUIDQueryParam, h]
  · intro h
    have : query.Get paramName = "" := by simp [Values.Get, h]
    simp [sanitizeUUIDQueryParam, this]

theorem sanitizeUUIDQueryParam_filters_witness :
    ((sanitizeUUIDQueryParam [("id", ["9f-Zx/3"])] "id").data = ['9', 'f', '-', '3'])
      ∧ sanitizeUUIDQueryParam [("id", [""])] "id" = ""
      ∧ sanitizeUUIDQueryParam [] "id" = "" :=
  ⟨by
    rw [(sanitizeUUIDQueryParam_filters [("id", ["9f-Zx/3"])] "id").1]
    decide,
   (sanitizeUUIDQueryParam_filters [("id", [""])] "id").2.2.1 (by decide),
   (sanitizeUUIDQueryParam_filters [] "id").2.2.2 (by decide)⟩

/-! ### The bearer check -/

theorem httpError_statusCode_fresh (msg : String) (code : Nat) :
    (httpError ResponseWriter.fresh msg code).statusCode = code := by
  simp [httpError, ResponseWriter.fresh, ResponseWriter.Del, ResponseWriter.Set,
    ResponseWriter.WriteHeader, ResponseWriter.Write, ResponseWriter.statusCode]

/-- C1: a request whose `Authorization` value is empty or differs from
`"Bearer " ++ apiToken` is answered `401 Unauthorized` by `authMiddleware`;
the outcome is the same whatever the wrapped handler is (it is not run) and
the server state, `requestCounter` included, is unchanged. -/
theorem authMiddleware_rejects (apiToken : String) (next : HandlerFunc) (c : Ctx) (s : Server)
    (w : ResponseWriter) (r : Request)
    (h : r.header.Get "Authorization" = ""
      ∨ r.header.Get "Authorization" ≠ "Bearer " ++ apiToken) :
    authMiddleware apiToken next c s w r = (s, httpError w "Unauthorized" StatusUnauthorized)
      ∧ (authMiddleware apiToken next c s w r).1.requestCounter = s.requestCounter
      ∧ (authMiddleware apiToken next c s ResponseWriter.fresh r).2.statusCode = 401 := by
  have e : ∀ w0, authMiddleware apiToken next c s w0 r
      = (s, httpError w0 "Unauthorized" StatusUnauthorized) := by
    intro w0
    simp only [authMiddleware]
    rw [if_pos h]
  refine ⟨e w, ?_, ?_⟩
  · rw [e w]
  · rw [e ResponseWriter.fresh, httpError_statusCode_fresh]
    rfl

theorem authMiddleware_rejects_witness :
    authMiddleware "s3cret" (fun _ s w _ => ({ s with requestCounter := 99, dir := [] }, w))
        (plainCtx 0 []) { requestCounter := 7, dir := [] } ResponseWriter.fresh
        (getRequest "Bearer wrong" "ab")
      = ({ requestCounter := 7, dir := [] },
          httpError ResponseWriter.fresh "Unauthorized" StatusUnauthorized) :=
  (authMiddleware_rejects "s3cret" _ (plainCtx 0 []) { requestCounter := 7, dir := [] }
    ResponseWriter.fresh (getRequest "Bearer wrong" "ab") (Or.inr (by decide))).1

/-! ### Fetching by identifier -/

theorem getImageHandler_congr (cx : Codec) (c : Ctx) (s : Server) (w : ResponseWriter)
    (r r' : Request)
    (h : sanitizeUUIDQueryParam r.query "id" = sanitizeUUIDQueryParam r'.query "id") :
    getImageHandler cx c s w r = getImageHandler cx c s w r' := by
  simp only [getImageHandler, h]

theorem sanitize_single (id : String) :
    (sanitizeUUIDQueryParam [("id", [id])] "id").data = id.data.filter inUUIDAlphabet := by
  rw [sanitize_data]
  simp [Values.Get, List.lookup]

theorem getImageHandler_notFound (cx : Codec) (c : Ctx) (s : Server) (w : ResponseWriter)
    (r : Request) (hs : c.faults.stat (lookupName r) = false)
    (hl : s.dir.lookup (lookupName r) = none) :
    getImageHandler cx c s w r = (s, httpError w "Image not found" StatusNotFound) := by
  unfold lookupName at hs hl
  simp [getImageHandler, osStat, hs, hl]

theorem getImageHandler_found (cx : Codec) (c : Ctx) (s : Server) (r : Request) (f : File)
    (hl : s.dir.lookup (lookupName r) = some f) :
    (getImageHandler cx c s ResponseWriter.fresh r).2.statusCode ≠ 404 := by
  unfold lookupName at hl
  have hst : osStat c.faults s.dir (sanitizeUUIDQueryParam r.query "id" ++ ".jpg")
      ≠ StatResult.notExist := by
    unfold osStat
    split
    · simp
    · simp [hl]
  simp only [getImageHandler, if_neg hst]
  split
  · rw [httpError_statusCode_fresh]; decide
  · split
    · rw [httpError_statusCode_fresh]; decide
    · split
      · simp [ResponseWriter.fresh, ResponseWriter.Set, ResponseWriter.WriteHeader,
          ResponseWriter.Write, ResponseWriter.statusCode]
      · split <;>
          simp [httpError, ResponseWriter.fresh, ResponseWriter.Del, ResponseWriter.Set,
            ResponseWriter.WriteHeader, ResponseWriter.Write, ResponseWriter.statusCode,
            StatusInternalServerError]

/-- C3 fails as stated: with a file `abc.jpg` in the store, the id `abc!` has a
character outside the alphabet, yet it is answered 200 while the empty id is
answered 404. -/
theorem getImageHandler_strips_not_rejects :
    (∃ ch ∈ "abc!".data, inUUIDAlphabet ch = false)
      ∧ (getImageHandler plainCodec (plainCtx 0 []) (serverWith (oneFile "abc.jpg"))
          ResponseWriter.fresh
          (getRequest "" "abc!")).2.statusCode = 200
      ∧ (getImageHandler plainCodec (plainCtx 0 []) (serverWith (oneFile "abc.jpg"))
          ResponseWriter.fresh
          (getRequest "" "")).2.statusCode = 404 := by
  refine ⟨⟨'!', by decide, by decide⟩, by decide, by decide⟩

/-- C3, amended: `getImageHandler` answers an id as it answers that id with
the characters outside `[a-fA-F0-9-]` removed; when no character of the id is
in the alphabet this is the answer to the empty id; and the answer is
`404 NotFound` when the directory has no entry named after the remaining
characters (and `os.Stat` does not fail otherwise). -/
theorem getImageHandler_sanitized (cx : Codec) (c : Ctx) (s : Server) (w : ResponseWriter)
    (r : Request) :
    getImageHandler cx c s w r
        = getImageHandler cx c s w
            { r with query := [("id", [sanitizeUUIDQueryParam r.query "id"])] }
      ∧ ((r.query.Get "id").data.filter inUUIDAlphabet = [] →
          getImageHandler cx c s w r
            = getImageHandler cx c s w { r with query := [("id", [""])] })
      ∧ (c.faults.stat (lookupName r) = false → s.dir.lookup (lookupName r) = none →
          getImageHandler cx c s w r = (s, httpError w "Image not found" StatusNotFound)) := by
  refine ⟨?_, ?_, getImageHandler_notFound cx c s w r⟩
  · apply getImageHandler_congr
    apply String.ext
    rw [sanitize_single, sanitize_data, List.filter_filter]
    simp
  · intro h
    apply getImageHandler_congr
    apply String.ext
    rw [sanitize_single, sanitize_data, h]
    rfl

theorem getImageHandler_sanitized_witness :
    getImageHandler plainCodec (plainCtx 0 []) (serverWith [])
        ResponseWriter.fresh (getRequest "" "../x!")
      = getImageHandler plainCodec (plainCtx 0 []) (serverWith [])
          ResponseWriter.fresh { getRequest "" "../x!" with query := [("id", [""])] }
      ∧ getImageHandler plainCodec (plainCtx 0 []) (serverWith [])
          ResponseWriter.fresh (getRequest "" "../x!")
        = ((serverWith []),
            httpError ResponseWriter.fresh "Image not found" StatusNotFound) :=
  ⟨(getImageHandler_sanitized plainCodec (plainCtx 0 []) (serverWith [])
      ResponseWriter.fresh (getRequest "" "../x!")).2.1 (by decide),
   (getImageHandler_sanitized plainCodec (plainCtx 0 []) (serverWith [])
      ResponseWriter.fresh (getRequest "" "../x!")).2.2 rfl rfl⟩

/-- C4 fails as stated: `../../etc/passwd` is not sanitized to the empty
string but to `ecad`, and with a file `ecad.jpg` in the store the request is
answered 200, not `NotFound`. -/
theorem sanitize_passwd_not_empty :
    sanitizeUUIDQueryParam [("id", ["../../etc/passwd"])] "id" ≠ ""
      ∧ (getImageHandler plainCodec (plainCtx 0 []) (serverWith (oneFile "ecad.jpg"))
          ResponseWriter.fresh
          (getRequest "" "../../etc/passwd")).2.statusCode = 200 := by
  refine ⟨by decide, by decide⟩

/-- C4, amended: `../../etc/passwd` is sanitized to `ecad`; `getImageHandler`
looks up the entry `ecad.jpg` of `tempDir`, a name without a path separator
and different from `..`, so no path outside `tempDir` is reached; the answer
is `NotFound` when the directory has no such entry, and otherwise it is not. -/
theorem getImageHandler_passwd (cx : Codec) (c : Ctx) (s : Server) (w : ResponseWriter)
    (r : Request) (hid : r.query.Get "id" = "../../etc/passwd") :
    sanitizeUUIDQueryParam r.query "id" = "ecad"
      ∧ lookupName r = "ecad.jpg"
      ∧ '/' ∉ (lookupName r).data
      ∧ lookupName r ≠ ".."
      ∧ (c.faults.stat "ecad.jpg" = false → s.dir.lookup "ecad.jpg" = none →
          getImageHandler cx c s w r = (s, httpError w "Image not found" StatusNotFound))
      ∧ (∀ f, s.dir.lookup "ecad.jpg" = some f →
          (getImageHandler cx c s ResponseWriter.fresh r).2.statusCode ≠ 404) := by
  have h1 : sanitizeUUIDQueryParam r.query "id" = "ecad" := by
    apply String.ext
    rw [sanitize_data, hid]
    decide
  have h2 : lookupName r = "ecad.jpg" := by
    unfold lookupName
    rw [h1]
    decide
  refine ⟨h1, h2, ?_, ?_, ?_, ?_⟩
  · rw [h2]; decide
  · rw [h2]; decide
  · intro hs hl
    exact getImageHandler_notFound cx c s w r (by rw [h2]; exact hs) (by rw [h2]; exact hl)
  · intro f hf
    exact getImageHandler_found cx c s r f (by rw [h2]; exact hf)

theorem getImageHandler_passwd_witness :
    sanitizeUUIDQueryParam (getRequest "" "../../etc/passwd").query "id" = "ecad"
      ∧ getImageHandler plainCodec (plainCtx 0 []) (serverWith [])
          ResponseWriter.fresh (getRequest "" "../../etc/passwd")
        = ((serverWith []),
            httpError ResponseWriter.fresh "Image not found" StatusNotFound) :=
  ⟨(getImageHandler_passwd plainCodec (plainCtx 0 []) (serverWith [])
      ResponseWriter.fresh (getRequest "" "../../etc/passwd") (by decide)).1,
   (getImageHandler_passwd plainCodec (plainCtx 0 []) (serverWith [])
      ResponseWriter.fresh (getRequest "" "../../etc/passwd") (by decide)).2.2.2.2.1 rfl rfl⟩

/-! ### The retention sweep -/

theorem lookup_filter_key (p : String → Bool) (d : Dir) (m : String) :
    (d.filter (fun e => p e.1)).lookup m = if p m then d.lookup m else none := by
  induction d with
  | nil => simp
  | cons e d ih =>
    obtain ⟨k, f⟩ := e
    by_cases hk : m = k
    · subst hk
      by_cases hp : p m
      · simp [List.filter_cons, hp, List.lookup_cons]
      · simp [List.filter_cons, hp, ih]
    · have hb : (m == k) = false := by simpa using hk
      by_cases hp : p k
      · simp [List.filter_cons, hp, List.lookup_cons, hb, ih]
      · simp [List.filter_cons, hp, List.lookup_cons, hb, ih]

theorem cleanupFile_eq_filter (ft : Faults) (cutoff : Int) (d : Dir) (n : String)
    (hstat : ∀ x, ft.stat x = false) (hrm : ∀ x, ft.remove x = false) :
    cleanupFile ft cutoff d n = d.filter (fun e => !(e.1 == n && expired cutoff d n)) := by
  unfold cleanupFile osStat osRemove expired
  rw [hstat n, hrm n]
  cases hl : d.lookup n with
  | none => simp
  | some f =>
    by_cases hold : f.modTime < cutoff
    · simp [hold, bne]
    · simp [hold]

theorem expired_filter (cutoff : Int) (d : Dir) (n m : String) (b : Bool) :
    expired cutoff (d.filter (fun e => !(e.1 == n && b))) m
      = (!(m == n && b) && expired cutoff d m) := by
  unfold expired
  rw [lookup_filter_key (fun k => !(k == n && b)) d m]
  cases h : (m == n && b) <;> simp

theorem foldl_cleanupFile (ft : Faults) (cutoff : Int)
    (hstat : ∀ x, ft.stat x = false) (hrm : ∀ x, ft.remove x = false) (files : List String) :
    ∀ d : Dir, files.foldl (cleanupFile ft cutoff) d
      = d.filter (fun e => !(decide (e.1 ∈ files) && expired cutoff d e.1)) := by
  induction files with
  | nil => intro d; simp
  | cons n files ih =>
    intro d
    rw [List.foldl_cons, ih, cleanupFile_eq_filter ft cutoff d n hstat hrm, List.filter_filter]
    apply List.filter_congr
    intro e _
    rw [expired_filter]
    by_cases hen : e.1 = n
    · subst hen
      cases expired cutoff d e.1 <;> simp
    · have hb : (e.1 == n) = false := by simpa using hen
      simp [hb, hen]

theorem cleanupPass_eq_filter (ft : Faults) (now : Int) (dir : Dir)
    (hrd : ft.readDir = false) (hstat : ∀ x, ft.stat x = false)
    (hrm : ∀ x, ft.remove x = false) :
    cleanupPass ft now dir = dir.filter (fun e => !expired (now + -24 * Hour) dir e.1) := by
  unfold cleanupPass osReadDir
  simp only [hrd, Bool.false_eq_true, if_false]
  rw [foldl_cleanupFile ft _ hstat hrm]
  apply List.filter_congr
  intro e he
  have hmem : e.1 ∈ (dir.map Prod.fst).insertionSort (fun a b => a ≤ b) := by
    rw [List.mem_insertionSort]
    exact List.mem_map_of_mem Prod.fst he
  rw [decide_eq_true hmem, Bool.true_and]

/-- C5 fails as stated: when `os.ReadDir` fails the pass is skipped, so a file
older than 24 hours stays although `os.Stat` and `os.Remove` would succeed. -/
theorem cleanupPass_skipped_when_readDir_fails :
    (∀ n, readDirFails.stat n = false) ∧ (∀ n, readDirFails.remove n = false)
      ∧ (25 * Hour - 0 > 24 * Hour)
      ∧ (cleanupPass readDirFails (25 * Hour) (oneFile "a.jpg")).lookup "a.jpg"
          = some { modTime := 0, data := [1] } := by
  refine ⟨fun _ => rfl, fun _ => rfl, by decide, by decide⟩

/-- C5, amended: when `os.ReadDir`, `os.Stat` and `os.Remove` succeed, one pass
of `cleanupOldFiles` at time `now` removes exactly the files with
`now - modTime` strictly above 24 hours: none of those remains, every file of
age at most 24 hours (exactly 24 hours included) is still there unchanged, no
file appears, and the directory afterwards is the old one without the removed
entries. -/
theorem cleanupPass_removes_exactly_old (ft : Faults) (now : Int) (dir : Dir)
    (hrd : ft.readDir = false) (hstat : ∀ n, ft.stat n = false)
    (hrm : ∀ n, ft.remove n = false) :
    (∀ name f, dir.lookup name = some f → now - f.modTime > 24 * Hour →
        (cleanupPass ft now dir).lookup name = none)
      ∧ (∀ name f, dir.lookup name = some f → now - f.modTime ≤ 24 * Hour →
        (cleanupPass ft now dir).lookup name = some f)
      ∧ (∀ name, dir.lookup name = none → (cleanupPass ft now dir).lookup name = none)
      ∧ List.Sublist (cleanupPass ft now dir) dir := by
  have key : ∀ name, (cleanupPass ft now dir).lookup name
      = if !expired (now + -24 * Hour) dir name then dir.lookup name else none := by
    intro name
    rw [cleanupPass_eq_filter ft now dir hrd hstat hrm]
    exact lookup_filter_key (fun k => !expired (now + -24 * Hour) dir k) dir name
  refine ⟨?_, ?_, ?_, ?_⟩
  · intro name f hl hage
    have : expired (now + -24 * Hour) dir name = true := by
      simp only [expired, hl, decide_eq_true_eq]
      omega
    rw [key, this]
    rfl
  · intro name f hl hage
    have : expired (now + -24 * Hour) dir name = false := by
      simp only [expired, hl, decide_eq_false_iff_not]
      omega
    rw [key, this]
    exact hl
  · intro name hl
    rw [key, hl]
    simp
  · rw [cleanupPass_eq_filter ft now dir hrd hstat hrm]
    exact List.filter_sublist dir

theorem cleanupPass_removes_exactly_old_witness :
    (cleanupPass Faults.none (25 * Hour) twoFiles).lookup "old.jpg" = none
      ∧ (cleanupPass Faults.none (25 * Hour) twoFiles).lookup "new.jpg"
          = some { modTime := Hour, data := [2] } :=
  ⟨(cleanupPass_removes_exactly_old Faults.none (25 * Hour) twoFiles rfl (fun _ => rfl)
      (fun _ => rfl)).1 "old.jpg" { modTime := 0, data := [1] } (by decide) (by decide),
   (cleanupPass_removes_exactly_old Faults.none (25 * Hour) twoFiles rfl (fun _ => rfl)
      (fun _ => rfl)).2.1 "new.jpg" { modTime := Hour, data := [2] } (by decide) (by decide)⟩

/-! ### Submitting and fetching -/

theorem lookup_map_update (g : String → File → File) (d : Dir) (name m : String) :
    (d.map (fun e => if e.1 = name then (e.1, g e.1 e.2) else e)).lookup m
      = if m = name then (d.lookup m).map (g m) else d.lookup m := by
  induction d with
  | nil => simp
  | cons e d ih =>
    obtain ⟨k, f⟩ := e
    by_cases hmk : m = k
    · subst hmk
      by_cases hn : m = name
      · simp [List.lookup_cons, hn]
      · simp [List.lookup_cons, hn]
    · have hb : (m == k) = false := by simpa using hmk
      by_cases hkn : k = name
      · subst hkn
        simp [List.lookup_cons, hb, hmk, ih]
      · simp [List.lookup_cons, hb, hkn, ih]

theorem lookup_append_single (d : Dir) (k m : String) (f : File) :
    (d ++ [(k, f)]).lookup m
      = match d.lookup m with
        | some x => some x
        | none => if m = k then some f else none := by
  induction d with
  | nil =>
    by_cases h : m = k
    · simp [List.lookup_cons, h]
    · have hb : (m == k) = false := by simpa using h
      simp [List.lookup_cons, h, hb]
  | cons e d ih =>
    obtain ⟨k2, f2⟩ := e
    by_cases h : m = k2
    · simp [List.lookup_cons, h]
    · have hb : (m == k2) = false := by simpa using h
      simp only [List.cons_append, List.lookup_cons, hb]
      exact ih

theorem lookup_create_write (ft : Faults) (d d1 : Dir) (name : String) (out : Bytes)
    (now : Int) (hc : osCreate ft d name now = some d1) :
    (fileWrite d1 name out now).lookup name = some { modTime := now, data := out }
      ∧ ∀ m, m ≠ name → (fileWrite d1 name out now).lookup m = d.lookup m := by
  have hw : ∀ m, (fileWrite d1 name out now).lookup m
      = if m = name then (d1.lookup m).map (fun f => { modTime := now, data := f.data ++ out })
        else d1.lookup m :=
    fun m => lookup_map_update (fun _ f => { modTime := now, data := f.data ++ out }) d1 name m
  unfold osCreate at hc
  split at hc
  · exact absurd hc (by simp)
  · split at hc
    · rename_i f0 hl
      have hd1 : d1 = d.map (fun e => if e.1 = name then (e.1, { modTime := now, data := [] })
          else e) := by
        simpa using hc.symm
      have hl1 : ∀ m, d1.lookup m
          = if m = name then (d.lookup m).map (fun _ => { modTime := now, data := [] })
            else d.lookup m := by
        intro m
        rw [hd1]
        exact lookup_map_update (fun _ _ => { modTime := now, data := [] }) d name m
      refine ⟨?_, ?_⟩
      · rw [hw, hl1]
        simp [hl]
      · intro m hm
        rw [hw, hl1]
        simp [hm]
    · rename_i hl
      have hd1 : d1 = d ++ [(name, { modTime := now, data := [] })] := by
        simpa using hc.symm
      have hl1 : ∀ m, d1.lookup m
          = match d.lookup m with
            | some x => some x
            | none => if m = name then some { modTime := now, data := [] } else none := by
        intro m
        rw [hd1]
        exact lookup_append_single d name m _
      refine ⟨?_, ?_⟩
      · rw [hw, hl1]
        simp [hl]
      · intro m hm
        rw [hw, hl1]
        cases hdm : d.lookup m <;> simp [hm]

theorem hexDigit_inAlphabet (n : Nat) (h : n < 16) : inUUIDAlphabet (hexDigit n) = true := by
  interval_cases n <;> decide

theorem hexEncode_inAlphabet (bs : List Nat) : ∀ ch ∈ hexEncode bs, inUUIDAlphabet ch = true := by
  induction bs with
  | nil => intro ch h; simp [hexEncode] at h
  | cons b bs ih =>
    intro ch h
    simp only [hexEncode, List.mem_cons] at h
    rcases h with h | h | h
    · rw [h]; exact hexDigit_inAlphabet _ (Nat.mod_lt _ (by decide))
    · rw [h]; exact hexDigit_inAlphabet _ (Nat.mod_lt _ (by decide))
    · exact ih ch h

theorem uuidString_inAlphabet (u : UUID) : ∀ ch ∈ u.String.data, inUUIDAlphabet ch = true := by
  have hx : ∀ l, (hexEncode l).all inUUIDAlphabet = true := by
    intro l
    rw [List.all_eq_true]
    exact hexEncode_inAlphabet l
  have hy : inUUIDAlphabet '-' = true := by decide
  have hall : u.String.data.all inUUIDAlphabet = true := by
    simp only [UUID.String, List.all_append, List.all_cons, hx, hy, Bool.and_self]
  exact List.all_eq_true.mp hall

theorem sanitize_uuid (query : Values) (u : UUID) (h : query.Get "id" = u.String) :
    sanitizeUUIDQueryParam query "id" = u.String := by
  apply String.ext
  rw [sanitize_data, h, List.filter_eq_self]
  exact uuidString_inAlphabet u

theorem jsonResponse_statusCode_fresh (json : String) :
    (jsonResponse ResponseWriter.fresh json).statusCode = 200 := by
  simp [jsonResponse, ResponseWriter.fresh, ResponseWriter.Set, ResponseWriter.WriteHeader,
    ResponseWriter.Write, ResponseWriter.statusCode]

theorem imageHandler_ok_inv (cx : Codec) (c : Ctx) (s : Server) (r : Request)
    (hok : (imageHandler cx c s ResponseWriter.fresh r).2.statusCode = StatusOK) :
    ∃ files file d1 out, r.form = some files ∧ files.lookup "file" = some file
      ∧ osCreate c.faults s.dir (c.uuid.String ++ ".jpg") c.now = some d1
      ∧ convertToBlackAndWhite cx file = (out, none)
      ∧ imageHandler cx c s ResponseWriter.fresh r
          = ({ s with dir := fileWrite d1 (c.uuid.String ++ ".jpg") out c.now },
              jsonResponse ResponseWriter.fresh (imageResponseJSON c.uuid.String)) := by
  unfold imageHandler at hok ⊢
  cases hform : r.form with
  | none =>
    simp only [hform, httpError_statusCode_fresh] at hok
    exact absurd hok (by decide)
  | some files =>
    cases hfile : files.lookup "file" with
    | none =>
      simp only [hform, hfile, httpError_statusCode_fresh] at hok
      exact absurd hok (by decide)
    | some file =>
      cases hcr : osCreate c.faults s.dir (c.uuid.String ++ ".jpg") c.now with
      | none =>
        simp only [hform, hfile, hcr, httpError_statusCode_fresh] at hok
        exact absurd hok (by decide)
      | some d1 =>
        rcases hcv : convertToBlackAndWhite cx file with ⟨out, err⟩
        cases err with
        | some e =>
          simp only [hform, hfile, hcr, hcv, httpError_statusCode_fresh] at hok
          exact absurd hok (by decide)
        | none =>
          exact ⟨files, file, d1, out, rfl, hfile, rfl, hcv, by simp only [hfile, hcr, hcv]⟩

theorem osStat_found (ft : Faults) (dir : Dir) (name : String) (f : File)
    (hl : dir.lookup name = some f) : osStat ft dir name ≠ StatResult.notExist := by
  unfold osStat
  split
  · simp
  · simp [hl]

theorem getImageHandler_open_failed (cx : Codec) (c : Ctx) (s : Server) (w : ResponseWriter)
    (r : Request) (f : File) (hl : s.dir.lookup (lookupName r) = some f)
    (ho : c.faults.openFile (lookupName r) = true) :
    getImageHandler cx c s w r
      = (s, httpError w "Failed to open image file" StatusInternalServerError) := by
  have hst := osStat_found c.faults s.dir (lookupName r) f hl
  unfold lookupName at hl ho hst
  simp only [getImageHandler, if_neg hst, osOpen, ho, if_true]

theorem getImageHandler_opened (cx : Codec) (c : Ctx) (s : Server) (w : ResponseWriter)
    (r : Request) (f : File) (hl : s.dir.lookup (lookupName r) = some f)
    (ho : c.faults.openFile (lookupName r) = false) :
    getImageHandler cx c s w r
      = match cx.decode f.data with
        | none => (s, httpError w "Failed to decode image" StatusInternalServerError)
        | some img =>
          match cx.encode Sink.response img with
          | (out, true) => (s, (w.Set "Content-Type" "image/jpeg").Write (Chunk.raw out))
          | (out, false) =>
            (s, httpError
              (if out = [] then w.Set "Content-Type" "image/jpeg"
                else (w.Set "Content-Type" "image/jpeg").Write (Chunk.raw out))
              "Failed to encode image" StatusInternalServerError) := by
  have hst := osStat_found c.faults s.dir (lookupName r) f hl
  unfold lookupName at hl ho hst
  simp only [getImageHandler, if_neg hst, osOpen, ho, Bool.false_eq_true, if_false, hl,
    Option.map_some']

/-- C6 fails as stated: after a successful submit, a fetch of the returned id
during which `os.Open` fails is answered `500` with the text
`Failed to open image file`; the stored artifact is not read. -/
theorem fetch_open_failure :
    (imageHandler plainCodec (plainCtx 5 sampleUUID) (serverWith []) ResponseWriter.fresh
        (postRequest "" [7])).2
        = jsonResponse ResponseWriter.fresh
            (imageResponseJSON "12345678-9abc-def0-0123-456789abcdef")
      ∧ (imageHandler plainCodec (plainCtx 5 sampleUUID) (serverWith []) ResponseWriter.fresh
          (postRequest "" [7])).1.dir
        = [("12345678-9abc-def0-0123-456789abcdef.jpg", { modTime := 5, data := [7] })]
      ∧ (getImageHandler plainCodec (openFailsCtx 6)
            (imageHandler plainCodec (plainCtx 5 sampleUUID) (serverWith [])
              ResponseWriter.fresh (postRequest "" [7])).1
            ResponseWriter.fresh
            (getRequest "" "12345678-9abc-def0-0123-456789abcdef")).2
        = httpError ResponseWriter.fresh "Failed to open image file" StatusInternalServerError
      ∧ (httpError ResponseWriter.fresh "Failed to open image file"
          StatusInternalServerError).body = [Chunk.text "Failed to open image file\n"] := by
  refine ⟨by decide, by decide, by decide, by decide⟩

/-- C6, amended: `sanitizeUUIDQueryParam` is the identity on every string
issued by `uuid.New().String()`; so for the id returned by a successful
`imageHandler` call, `getImageHandler` looks up the very entry `id ++ ".jpg"`
that `imageHandler` wrote, which right after the submit holds the bytes the
conversion wrote. The answer of `getImageHandler` is never `404 NotFound`;
when `os.Open` succeeds it is computed from exactly those bytes (their
decoding re-encoded into the response, or `500` when decoding or encoding
fails), and when `os.Open` fails it is `500` without the artifact. -/
theorem fetch_after_submit (cx : Codec) (c : Ctx) (s : Server) (r : Request)
    (hok : (imageHandler cx c s ResponseWriter.fresh r).2.statusCode = StatusOK)
    (c2 : Ctx) (r2 : Request) (hid : r2.query.Get "id" = c.uuid.String) :
    (∀ u : UUID, sanitizeUUIDQueryParam [("id", [u.String])] "id" = u.String)
      ∧ (imageHandler cx c s ResponseWriter.fresh r).2
          = jsonResponse ResponseWriter.fresh (imageResponseJSON c.uuid.String)
      ∧ sanitizeUUIDQueryParam r2.query "id" = c.uuid.String
      ∧ lookupName r2 = c.uuid.String ++ ".jpg"
      ∧ (∃ file out, r.form.bind (fun files => files.lookup "file") = some file
          ∧ convertToBlackAndWhite cx file = (out, none)
          ∧ (imageHandler cx c s ResponseWriter.fresh r).1.dir.lookup (lookupName r2)
              = some { modTime := c.now, data := out }
          ∧ (∀ w, c2.faults.openFile (lookupName r2) = false →
              getImageHandler cx c2 (imageHandler cx c s ResponseWriter.fresh r).1 w r2
                = match cx.decode out with
                  | none =>
                    ((imageHandler cx c s ResponseWriter.fresh r).1,
                      httpError w "Failed to decode image" StatusInternalServerError)
                  | some img =>
                    match cx.encode Sink.response img with
                    | (o, true) =>
                      ((imageHandler cx c s ResponseWriter.fresh r).1,
                        (w.Set "Content-Type" "image/jpeg").Write (Chunk.raw o))
                    | (o, false) =>
                      ((imageHandler cx c s ResponseWriter.fresh r).1,
                        httpError
                          (if o = [] then w.Set "Content-Type" "image/jpeg"
                            else (w.Set "Content-Type" "image/jpeg").Write (Chunk.raw o))
                          "Failed to encode image" StatusInternalServerError))
          ∧ (∀ w, c2.faults.openFile (lookupName r2) = true →
              getImageHandler cx c2 (imageHandler cx c s ResponseWriter.fresh r).1 w r2
                = ((imageHandler cx c s ResponseWriter.fresh r).1,
                    httpError w "Failed to open image file" StatusInternalServerError)))
      ∧ (getImageHandler cx c2 (imageHandler cx c s ResponseWriter.fresh r).1
            ResponseWriter.fresh r2).2.statusCode ≠ 404 := by
  obtain ⟨files, file, d1, out, hform, hfile, hcr, hcv, heq⟩ := imageHandler_ok_inv cx c s r hok
  have hsan : sanitizeUUIDQueryParam r2.query "id" = c.uuid.String := sanitize_uuid r2.query _ hid
  have hname : lookupName r2 = c.uuid.String ++ ".jpg" := by
    unfold lookupName
    rw [hsan]
  have hlk : (imageHandler cx c s ResponseWriter.fresh r).1.dir.lookup (lookupName r2)
      = some { modTime := c.now, data := out } := by
    rw [heq, hname]
    exact (lookup_create_write c.faults s.dir d1 _ out c.now hcr).1
  refine ⟨?_, ?_, hsan, hname, ⟨file, out, ?_, hcv, hlk, ?_, ?_⟩, ?_⟩
  · intro u
    apply sanitize_uuid
    simp [Values.Get, List.lookup]
  · rw [heq]
  · simp [hform, hfile]
  · intro w hopen
    exact getImageHandler_opened cx c2 _ w r2 _ hlk hopen
  · intro w hopen
    exact getImageHandler_open_failed cx c2 _ w r2 _ hlk hopen
  · exact getImageHandler_found cx c2 _ r2 _ hlk

theorem fetch_after_submit_witness :
    lookupName (getRequest "" "12345678-9abc-def0-0123-456789abcdef")
        = "12345678-9abc-def0-0123-456789abcdef.jpg"
      ∧ (getImageHandler plainCodec (plainCtx 6 [])
            (imageHandler plainCodec (plainCtx 5 sampleUUID) (serverWith [])
              ResponseWriter.fresh (postRequest "" [7])).1
            ResponseWriter.fresh
            (getRequest "" "12345678-9abc-def0-0123-456789abcdef")).2.statusCode ≠ 404
      ∧ (getImageHandler plainCodec (plainCtx 6 [])
            (imageHandler plainCodec (plainCtx 5 sampleUUID) (serverWith [])
              ResponseWriter.fresh (postRequest "" [7])).1
            ResponseWriter.fresh
            (getRequest "" "12345678-9abc-def0-0123-456789abcdef")).2.body
          = [Chunk.raw [7]] := by
  have h := fetch_after_submit plainCodec (plainCtx 5 sampleUUID) (serverWith [])
    (postRequest "" [7]) (by decide) (plainCtx 6 [])
    (getRequest "" "12345678-9abc-def0-0123-456789abcdef") (by decide)
  refine ⟨h.2.2.2.1, h.2.2.2.2.2, ?_⟩
  obtain ⟨file, out, hf, hcv, _, hopened, _⟩ := h.2.2.2.2.1
  have hfile : file = [7] := by
    have h7 : (postRequest "" [7]).form.bind (fun files => files.lookup "file") = some [7] := by
      decide
    rw [h7] at hf
    exact (Option.some.inj hf).symm
  subst hfile
  have hout : out = [7] := by
    have h7 : convertToBlackAndWhite plainCodec [7] = ([7], none) := by decide
    rw [h7] at hcv
    exact (Prod.mk.inj hcv).1.symm
  subst hout
  rw [hopened ResponseWriter.fresh rfl]
  decide

/-- C7 fails as stated: an upload that cannot be decoded is answered 500, but
the file created under the generated id before the conversion stays in the
directory, which was empty before the call. -/
theorem imageHandler_failed_upload_leaves_file :
    (convertToBlackAndWhite plainCodec []).2 = some "failed to decode image"
      ∧ (imageHandler plainCodec (plainCtx 5 sampleUUID) (serverWith []) ResponseWriter.fresh
          (postRequest "" [])).2.statusCode = 500
      ∧ (serverWith []).dir = []
      ∧ (imageHandler plainCodec (plainCtx 5 sampleUUID) (serverWith []) ResponseWriter.fresh
          (postRequest "" [])).1.dir
        = [("12345678-9abc-def0-0123-456789abcdef.jpg", { modTime := 5, data := [] })] := by
  refine ⟨by decide, by decide, rfl, by decide⟩

/-- C7, amended: when the conversion of an upload fails, `imageHandler`
answers `500` with the message `Failed to convert image`; the file
created under the generated id stays in the directory, holding the bytes the
failed conversion wrote (none when decoding failed); every other file and the
request counter are unchanged. -/
theorem imageHandler_conversion_failure (cx : Codec) (c : Ctx) (s : Server)
    (w : ResponseWriter) (r : Request) (files : List (String × Bytes)) (file out : Bytes)
    (err : String) (hform : r.form = some files) (hfile : files.lookup "file" = some file)
    (hcreate : c.faults.create (c.uuid.String ++ ".jpg") = false)
    (hconv : convertToBlackAndWhite cx file = (out, some err)) :
    (imageHandler cx c s w r).2
        = httpError w "Failed to convert image" StatusInternalServerError
      ∧ (imageHandler cx c s w r).1.dir.lookup (c.uuid.String ++ ".jpg")
          = some { modTime := c.now, data := out }
      ∧ (cx.decode file = none → out = [])
      ∧ (∀ m, m ≠ c.uuid.String ++ ".jpg" →
          (imageHandler cx c s w r).1.dir.lookup m = s.dir.lookup m)
      ∧ (imageHandler cx c s w r).1.requestCounter = s.requestCounter := by
  have hcr : ∃ d1, osCreate c.faults s.dir (c.uuid.String ++ ".jpg") c.now = some d1 := by
    unfold osCreate
    rw [hcreate]
    cases s.dir.lookup (c.uuid.String ++ ".jpg") <;> simp
  obtain ⟨d1, hd1⟩ := hcr
  have heq : imageHandler cx c s w r
      = ({ s with dir := fileWrite d1 (c.uuid.String ++ ".jpg") out c.now },
          httpError w "Failed to convert image" StatusInternalServerError) := by
    unfold imageHandler
    simp only [hform, hfile, hd1, hconv]
  have hlw := lookup_create_write c.faults s.dir d1 (c.uuid.String ++ ".jpg") out c.now hd1
  refine ⟨by rw [heq], by rw [heq]; exact hlw.1, ?_, ?_, by rw [heq]⟩
  · intro hdec
    have : convertToBlackAndWhite cx file = ([], some "failed to decode image") := by
      simp [convertToBlackAndWhite, hdec]
    rw [this] at hconv
    exact (Prod.mk.inj hconv).1.symm
  · intro m hm
    rw [heq]
    exact hlw.2 m hm

theorem imageHandler_conversion_failure_witness :
    (imageHandler plainCodec (plainCtx 5 sampleUUID) (serverWith (oneFile "a.jpg"))
        ResponseWriter.fresh (postRequest "" [])).1.dir.lookup
          ((plainCtx 5 sampleUUID).uuid.String ++ ".jpg")
        = some { modTime := (plainCtx 5 sampleUUID).now, data := [] }
      ∧ (imageHandler plainCodec (plainCtx 5 sampleUUID) (serverWith (oneFile "a.jpg"))
        ResponseWriter.fresh (postRequest "" [])).1.requestCounter
        = (serverWith (oneFile "a.jpg")).requestCounter :=
  ⟨(imageHandler_conversion_failure plainCodec (plainCtx 5 sampleUUID)
      (serverWith (oneFile "a.jpg")) ResponseWriter.fresh (postRequest "" [])
      [("file", [])] [] [] "failed to decode image" rfl (by decide) rfl (by decide)).2.1,
   (imageHandler_conversion_failure plainCodec (plainCtx 5 sampleUUID)
      (serverWith (oneFile "a.jpg")) ResponseWriter.fresh (postRequest "" [])
      [("file", [])] [] [] "failed to decode image" rfl (by decide) rfl (by decide)).2.2.2.2⟩

/-! ### The user registry -/

theorem userMap_lookup_append (users : UserMap) (k j : Int) (u : User) :
    (users ++ [(k, u)]).lookup j
      = match users.lookup j with
        | some x => some x
        | none => if j = k then some u else none := by
  induction users with
  | nil =>
    by_cases h : j = k
    · simp [List.lookup_cons, h]
    · have hb : (j == k) = false := by simpa using h
      simp [List.lookup_cons, h, hb]
  | cons e users ih =>
    obtain ⟨k2, u2⟩ := e
    by_cases h : j = k2
    · simp [List.lookup_cons, h]
    · have hb : (j == k2) = false := by simpa using h
      simp only [List.cons_append, List.lookup_cons, hb]
      exact ih

theorem storeUser_present (users : UserMap) (user : TeleUser) (now : Int) (u0 : User)
    (h : users.Load user.ID = some u0) : storeUser users user now = users := by
  simp [storeUser, h]

theorem storeUser_absent (users : UserMap) (user : TeleUser) (now : Int)
    (h : users.Load user.ID = none) :
    storeUser users user now
      = users ++ [(user.ID, ⟨user.Username, user.IsBot, now⟩)] := by
  have h2 : users.lookup user.ID = none := h
  simp [storeUser, h, UserMap.Store, h2]

theorem storeUser_load_self (users : UserMap) (user : TeleUser) (now : Int) :
    (storeUser users user now).Load user.ID
      = some (match users.Load user.ID with
          | some u0 => u0
          | none => { Username := user.Username, IsBot := user.IsBot, CreatedAt := now }) := by
  cases h : users.Load user.ID with
  | some u0 => rw [storeUser_present users user now u0 h, h]
  | none =>
    rw [storeUser_absent users user now h]
    have h2 : users.lookup user.ID = none := h
    simp [UserMap.Load, userMap_lookup_append, h2]

theorem storeUser_load_other (users : UserMap) (user : TeleUser) (now : Int) (j : Int)
    (hj : j ≠ user.ID) : (storeUser users user now).Load j = users.Load j := by
  cases h : users.Load user.ID with
  | some u0 => rw [storeUser_present users user now u0 h]
  | none =>
    rw [storeUser_absent users user now h]
    simp only [UserMap.Load, userMap_lookup_append]
    cases users.lookup j <;> simp [hj]

/-- C8 fails as stated: in a registry that already holds user id 7 with
`created_at` 1 (as `loadUsers` builds it from `users.json`), two calls of
`storeUser` for that id at times 10 and 20 leave `created_at` at 1, not at
the time of the first of the two calls. -/
theorem storeUser_keeps_earlier_created_at :
    registeredAlice.Load alice.ID
        = some { Username := "alice", IsBot := false, CreatedAt := 1 }
      ∧ createdAt (storeUser (storeUser registeredAlice alice 10) alice 20) alice.ID = some 1
      ∧ createdAt (storeUser (storeUser registeredAlice alice 10) alice 20) alice.ID
          ≠ some 10 := by
  refine ⟨by decide, by decide, by decide⟩

/-- C8, amended: for calls that do not overlap, `storeUser` leaves the
registry unchanged when the user id is already in it; a second call for the
same id, at any later time and with any profile, changes nothing, so
`created_at` stays what the first call left: the time of the first call when
the id was absent before it, and the earlier recorded time when the id was
already present; the records of all other ids are unchanged by either call. -/
theorem storeUser_first_seen_wins (users : UserMap) (user user2 : TeleUser) (t1 t2 : Int)
    (hid : user2.ID = user.ID) :
    (∀ u0, users.Load user.ID = some u0 → storeUser users user t1 = users)
      ∧ storeUser (storeUser users user t1) user2 t2 = storeUser users user t1
      ∧ createdAt (storeUser (storeUser users user t1) user2 t2) user.ID
          = createdAt (storeUser users user t1) user.ID
      ∧ (users.Load user.ID = none →
          createdAt (storeUser (storeUser users user t1) user2 t2) user.ID = some t1)
      ∧ (∀ u0, users.Load user.ID = some u0 →
          createdAt (storeUser (storeUser users user t1) user2 t2) user.ID
            = some u0.CreatedAt)
      ∧ (∀ j, j ≠ user.ID →
          (storeUser users user t1).Load j = users.Load j
            ∧ (storeUser (storeUser users user t1) user2 t2).Load j = users.Load j) := by
  have hsecond : storeUser (storeUser users user t1) user2 t2 = storeUser users user t1 := by
    apply storeUser_present _ user2 t2
    rw [hid]
    exact storeUser_load_self users user t1
  refine ⟨fun u0 h => storeUser_present users user t1 u0 h, hsecond, by rw [hsecond], ?_, ?_,
    ?_⟩
  · intro habs
    rw [hsecond]
    simp [createdAt, storeUser_load_self, habs]
  · intro u0 hpres
    rw [hsecond]
    simp [createdAt, storeUser_load_self, hpres]
  · intro j hj
    refine ⟨storeUser_load_other users user t1 j hj, ?_⟩
    rw [hsecond]
    exact storeUser_load_other users user t1 j hj

theorem storeUser_first_seen_wins_witness :
    storeUser (storeUser oneUser alice 10) alice 20 = storeUser oneUser alice 10
      ∧ createdAt (storeUser (storeUser oneUser alice 10) aliceRenamed 20) 7 = some 10
      ∧ createdAt (storeUser (storeUser registeredAlice alice 10) aliceRenamed 20) 7 = some 1
      ∧ (storeUser (storeUser oneUser alice 10) aliceRenamed 20).Load 3 = oneUser.Load 3 :=
  ⟨(storeUser_first_seen_wins oneUser alice alice 10 20 rfl).2.1,
   (storeUser_first_seen_wins oneUser alice aliceRenamed 10 20 rfl).2.2.2.1 (by decide),
   (storeUser_first_seen_wins registeredAlice alice aliceRenamed 10 20 rfl).2.2.2.2.1
      { Username := "alice", IsBot := false, CreatedAt := 1 } (by decide),
   ((storeUser_first_seen_wins oneUser alice aliceRenamed 10 20 rfl).2.2.2.2.2 3
      (by decide)).2⟩

/-! ### The request counter -/

theorem imageHandler_counter (cx : Codec) (c : Ctx) (s : Server) (w : ResponseWriter)
    (r : Request) : (imageHandler cx c s w r).1.requestCounter = s.requestCounter := by
  unfold imageHandler
  dsimp only
  repeat (first | rfl | split)

theorem getImageHandler_counter (cx : Codec) (c : Ctx) (s : Server) (w : ResponseWriter)
    (r : Request) : (getImageHandler cx c s w r).1.requestCounter = s.requestCounter := by
  unfold getImageHandler
  dsimp only
  repeat (first | rfl | split)

theorem passesBearerCheck_false (apiToken : String) (r : Request) :
    passesBearerCheck apiToken r = false
      ↔ (r.header.Get "Authorization" = ""
          ∨ r.header.Get "Authorization" ≠ "Bearer " ++ apiToken) := by
  unfold passesBearerCheck
  by_cases h1 : r.header.Get "Authorization" = ""
  · simp [h1]
  · by_cases h2 : r.header.Get "Authorization" = "Bearer " ++ apiToken
    · simp [h1, h2]
    · simp [h1, h2]

theorem authMiddleware_counter (apiToken : String) (next : HandlerFunc)
    (hnext : ∀ c s w r, (next c s w r).1.requestCounter = s.requestCounter)
    (c : Ctx) (s : Server) (w : ResponseWriter) (r : Request) :
    (authMiddleware apiToken next c s w r).1.requestCounter
      = if passesBearerCheck apiToken r then addUint64 s.requestCounter 1
        else s.requestCounter := by
  by_cases h : r.header.Get "Authorization" = ""
      ∨ r.header.Get "Authorization" ≠ "Bearer " ++ apiToken
  · have hp : passesBearerCheck apiToken r = false := (passesBearerCheck_false apiToken r).2 h
    simp only [authMiddleware, if_pos h, hp, Bool.false_eq_true, if_false]
  · have hp : passesBearerCheck apiToken r = true := by
      cases hb : passesBearerCheck apiToken r
      · exact absurd ((passesBearerCheck_false apiToken r).1 hb) h
      · rfl
    simp only [authMiddleware, if_neg h, hp, if_true, hnext]

theorem serve_counter (apiToken : String) (cx : Codec) (c : Ctx) (s : Server)
    (w : ResponseWriter) (r : Request) :
    (serve apiToken cx c s w r).1.requestCounter
      = if counted apiToken (c, r) then addUint64 s.requestCounter 1 else s.requestCounter := by
  unfold serve
  by_cases hp : r.path = "/image"
  · have hcnt : counted apiToken (c, r)
        = ((methodMatches "POST" r.method || methodMatches "GET" r.method)
            && passesBearerCheck apiToken r) := by
      simp [counted, onAuthenticatedRoute, hp]
    rw [if_pos hp, hcnt]
    cases hm1 : methodMatches "POST" r.method
    · cases hm2 : methodMatches "GET" r.method
      · simp
      · simp only [Bool.false_eq_true, if_false, if_true, Bool.false_or, Bool.true_and]
        exact authMiddleware_counter apiToken _ (getImageHandler_counter cx) c s w r
    · simp only [if_true, Bool.true_or, Bool.true_and]
      exact authMiddleware_counter apiToken _ (imageHandler_counter cx) c s w r
  · have hcnt : counted apiToken (c, r) = false := by
      simp [counted, onAuthenticatedRoute, hp]
    rw [if_neg hp, hcnt]
    simp only [Bool.false_eq_true, if_false]
    split
    · split <;> rfl
    · rfl

theorem addUint64_lt (c : Nat) : addUint64 c 1 < 2 ^ 64 :=
  Nat.mod_lt _ (by decide)

theorem serveAll_counter (apiToken : String) (cx : Codec) (reqs : List (Ctx × Request)) :
    ∀ s : Server, s.requestCounter < 2 ^ 64 →
      (serveAll apiToken cx s reqs).requestCounter
        = (s.requestCounter + reqs.countP (counted apiToken)) % 2 ^ 64 := by
  induction reqs with
  | nil =>
    intro s hs
    simp only [serveAll, List.countP_nil, Nat.add_zero]
    exact (Nat.mod_eq_of_lt hs).symm
  | cons x reqs ih =>
    intro s hs
    obtain ⟨c, r⟩ := x
    have hstep := serve_counter apiToken cx c s ResponseWriter.fresh r
    simp only [serveAll, List.countP_cons]
    by_cases hc : counted apiToken (c, r) = true
    · rw [if_pos hc] at hstep
      rw [ih _ (hstep ▸ addUint64_lt _), hstep, if_pos hc]
      unfold addUint64
      omega
    · rw [if_neg hc] at hstep
      rw [ih _ (hstep ▸ hs), hstep, if_neg hc]
      rfl

/-- C9 fails as stated: after `2 ^ 64` authorized `GET /image` requests, each
of which passed the bearer check, the `uint64` counter that started at zero is
zero again, not the number of those requests. -/
theorem requestCounter_wraps :
    manyRequests.countP (counted "t") = 2 ^ 64
      ∧ (serveAll "t" plainCodec (serverWith []) manyRequests).requestCounter = 0 := by
  have hc : manyRequests.countP (counted "t") = 2 ^ 64 := by
    unfold manyRequests
    rw [List.countP_replicate]
    rw [if_pos (by decide)]
  refine ⟨hc, ?_⟩
  rw [serveAll_counter "t" plainCodec manyRequests (serverWith []) (by decide), hc]
  decide

/-- C9, amended: starting from a counter of zero, `requestCounter` after a
sequence of requests equals the number of requests that passed the bearer
check on the routes `POST /image` and `GET /image`, modulo `2 ^ 64`; while
that number is below `2 ^ 64` the counter equals it and never decreases along
the sequence; each such request adds one (wrapping), and requests that fail
the bearer check and requests to `/stats` leave it unchanged. -/
theorem requestCounter_counts_authorized (apiToken : String) (cx : Codec) (dir : Dir)
    (reqs : List (Ctx × Request)) :
    (serveAll apiToken cx (serverWith dir) reqs).requestCounter
        = reqs.countP (counted apiToken) % 2 ^ 64
      ∧ (reqs.countP (counted apiToken) < 2 ^ 64 →
          (serveAll apiToken cx (serverWith dir) reqs).requestCounter
              = reqs.countP (counted apiToken)
            ∧ ∀ pre post, reqs = pre ++ post →
                (serveAll apiToken cx (serverWith dir) pre).requestCounter
                  ≤ (serveAll apiToken cx (serverWith dir) (pre ++ post)).requestCounter)
      ∧ (∀ c s w r, (serve apiToken cx c s w r).1.requestCounter
          = if counted apiToken (c, r) then addUint64 s.requestCounter 1
            else s.requestCounter)
      ∧ (∀ c s w r, passesBearerCheck apiToken r = false →
          (serve apiToken cx c s w r).1.requestCounter = s.requestCounter)
      ∧ (∀ c s w r, r.path = "/stats" →
          (serve apiToken cx c s w r).1.requestCounter = s.requestCounter) := by
  have h0 : (serverWith dir).requestCounter < 2 ^ 64 := by
    simp [serverWith]
  have hall : ∀ l, (serveAll apiToken cx (serverWith dir) l).requestCounter
      = l.countP (counted apiToken) % 2 ^ 64 := by
    intro l
    rw [serveAll_counter apiToken cx l (serverWith dir) h0]
    simp [serverWith]
  refine ⟨hall reqs, ?_, serve_counter apiToken cx, ?_, ?_⟩
  · intro hlt
    refine ⟨by rw [hall, Nat.mod_eq_of_lt hlt], ?_⟩
    intro pre post hsplit
    rw [hall, hall]
    rw [hsplit, List.countP_append] at hlt
    rw [List.countP_append, Nat.mod_eq_of_lt hlt, Nat.mod_eq_of_lt (by omega)]
    omega
  · intro c s w r hp
    rw [serve_counter]
    simp [counted, hp]
  · intro c s w r hpath
    rw [serve_counter]
    have : onAuthenticatedRoute r = false := by
      simp [onAuthenticatedRoute, hpath]
    simp [counted, this]

theorem requestCounter_counts_authorized_witness :
    (serveAll "t" plainCodec (serverWith [])
        [(plainCtx 0 [], getRequest "Bearer t" ""), (plainCtx 1 [], getRequest "Bearer x" ""),
          (plainCtx 2 sampleUUID, postRequest "Bearer t" [7])]).requestCounter = 2 :=
  ((requestCounter_counts_authorized "t" plainCodec []
      [(plainCtx 0 [], getRequest "Bearer t" ""), (plainCtx 1 [], getRequest "Bearer x" ""),
        (plainCtx 2 sampleUUID, postRequest "Bearer t" [7])]).2.1 (by decide)).1

/-! ### The relay without a token -/

theorem serve_submit_without_token (apiToken : String) (cx : Codec) (c : Ctx) (s : Server)
    (w : ResponseWriter) (r : Request) (hpath : r.path = "/image") (hm : r.method = "POST")
    (hauth : r.header.Get "Authorization" = "") :
    serve apiToken cx c s w r = (s, httpError w "Unauthorized" StatusUnauthorized) := by
  have hmm : methodMatches "POST" r.method = true := by
    rw [hm]; decide
  unfold serve
  rw [if_pos hpath, if_pos hmm]
  simp only [authMiddleware]
  rw [if_pos (Or.inl hauth)]

theorem withToken_empty (header : Values) : withToken "" header = header := by
  simp [withToken]

theorem status_401 : toString (401 : Nat) ++ " " ++ StatusText 401 = "401 Unauthorized" := by
  decide

/-- C10 fails as stated: with both tokens empty and the server unreachable,
`processImage` fails, but with the transport error and not with the non-200
error. -/
theorem processImage_transport_error :
    (defaultRelay "").imageProcessingAPIToken = ""
      ∧ (processImage (defaultRelay "") serverDown "photo.jpg").2.2
          = Except.error "failed to send request"
      ∧ "failed to send request" ≠ non200 "401 Unauthorized" := by
  refine ⟨rfl, rfl, by decide⟩

theorem submitRequest_no_authorization {σ : Type} (env : RelayEnv σ) (content : Bytes)
    (htok : env.imageProcessingAPIToken = "") :
    (submitRequest env content).header.Get "Authorization" = "" := by
  have hne : ("Authorization" == "Content-Type") = false := by decide
  simp [submitRequest, htok, withToken_empty, Values.Get, List.lookup, hne]

theorem sendToServer_submit (apiToken : String) (cx : Codec) (parseQuery : String → Values)
    (net : Wire) (req : ClientRequest) (hpath : req.path = "/image") (hm : req.method = "POST")
    (hauth : req.header.Get "Authorization" = "") :
    sendToServer apiToken cx parseQuery net req
      = match net.arrivals with
        | [] => (net, none)
        | none :: rest => ({ net with arrivals := rest }, none)
        | some _ :: rest =>
          ({ server := net.server, arrivals := rest },
            some { statusCode := 401, status := "401 Unauthorized",
                   body := (httpError ResponseWriter.fresh "Unauthorized"
                     StatusUnauthorized).body }) := by
  unfold sendToServer
  cases harr : net.arrivals with
  | nil => rfl
  | cons a rest =>
    cases a with
    | none => rfl
    | some c =>
      simp only
      rw [serve_submit_without_token apiToken cx c net.server ResponseWriter.fresh _ hpath hm
        hauth]
      simp only [httpError_statusCode_fresh, StatusUnauthorized, status_401]

theorem processImage_submit_outcome {σ : Type} (env : RelayEnv σ) (net net1 : σ)
    (filePath : String) (content : Bytes) (resp : Option ClientResponse)
    (hread : env.readFile filePath = some (some content))
    (hurl : env.validURL (env.imageProcessingServerURL ++ "/image") = true)
    (hsend : env.send net (submitRequest env content) = (net1, resp))
    (hresp : ∀ r1, resp = some r1 → r1.statusCode ≠ StatusOK) :
    processImage env net filePath
      = (net1, [submitRequest env content], submitFailure resp) := by
  unfold submitRequest at hsend
  unfold processImage
  simp only [hread, hurl, Bool.not_true, Bool.false_eq_true, if_false, hsend]
  cases resp with
  | none => rfl
  | some r1 =>
    have h := hresp r1 rfl
    simp only [ne_eq, h, not_false_eq_true, if_true]
    rfl

/-- C10, amended: with an empty relay token every request `processImage`
hands to the server is the `POST` submit without an `Authorization` header;
`authMiddleware` answers a request without that header with 401 whatever the
server token is; so `processImage` always fails and never issues the fetch
request, and whenever the file can be read, the URL is accepted and the
request reaches the server, the failure is the non-200 error
`401 Unauthorized`. -/
theorem processImage_without_token (apiToken : String) (cx : Codec)
    (parseQuery : String → Values) (env : RelayEnv Wire) (net : Wire) (filePath : String)
    (htok : env.imageProcessingAPIToken = "")
    (hsend : env.send = sendToServer apiToken cx parseQuery) :
    (∀ req ∈ (processImage env net filePath).2.1,
        req.method = "POST" ∧ req.header.Get "Authorization" = "")
      ∧ (∀ (next : HandlerFunc) c s w r, r.header.Get "Authorization" = "" →
          authMiddleware apiToken next c s w r
            = (s, httpError w "Unauthorized" StatusUnauthorized))
      ∧ (∃ e, (processImage env net filePath).2.2 = Except.error e)
      ∧ (∀ content c rest, env.readFile filePath = some (some content) →
          env.validURL (env.imageProcessingServerURL ++ "/image") = true →
          net.arrivals = some c :: rest →
          (processImage env net filePath).2.2 = Except.error (non200 "401 Unauthorized")
            ∧ (processImage env net filePath).2.1 = [submitRequest env content]
            ∧ (processImage env net filePath).1.server = net.server) := by
  have hsub : ∀ content, sendToServer apiToken cx parseQuery net (submitRequest env content)
      = match net.arrivals with
        | [] => (net, none)
        | none :: rest => ({ net with arrivals := rest }, none)
        | some _ :: rest =>
          ({ server := net.server, arrivals := rest },
            some { statusCode := 401, status := "401 Unauthorized",
                   body := (httpError ResponseWriter.fresh "Unauthorized"
                     StatusUnauthorized).body }) :=
    fun content => sendToServer_submit apiToken cx parseQuery net _ rfl rfl
      (submitRequest_no_authorization env content htok)
  have hcases : ∀ content, env.readFile filePath = some (some content) →
      env.validURL (env.imageProcessingServerURL ++ "/image") = true →
      ∃ net1 resp, processImage env net filePath
        = (net1, [submitRequest env content], submitFailure resp)
        ∧ (∀ c rest, net.arrivals = some c :: rest →
            net1.server = net.server
              ∧ ∃ body, resp = some (ClientResponse.mk 401 "401 Unauthorized" body)) := by
    intro content hread hurl
    have h1 := hsub content
    rw [← hsend] at h1
    cases harr : net.arrivals with
    | nil =>
      rw [harr] at h1
      refine ⟨net, none, processImage_submit_outcome env net net filePath content none hread
        hurl h1 (by intro r1 h; cases h), ?_⟩
      intro c rest h; cases h
    | cons a rest =>
      cases a with
      | none =>
        rw [harr] at h1
        refine ⟨{ net with arrivals := rest }, none,
          processImage_submit_outcome env net _ filePath content none hread
            hurl h1 (by intro r1 h; cases h), ?_⟩
        intro c rest h; cases h
      | some c0 =>
        rw [harr] at h1
        refine ⟨{ server := net.server, arrivals := rest },
          some (ClientResponse.mk 401 "401 Unauthorized"
            (httpError ResponseWriter.fresh "Unauthorized" StatusUnauthorized).body),
          processImage_submit_outcome env net _ filePath content _ hread hurl h1 ?_, ?_⟩
        · intro r1 h
          cases h
          decide
        · intro c rest2 _
          exact ⟨rfl, _, rfl⟩
  refine ⟨?_, ?_, ?_, ?_⟩
  · intro req hreq
    cases hread : env.readFile filePath with
    | none =>
      simp [processImage, hread] at hreq
    | some o =>
      cases o with
      | none => simp [processImage, hread] at hreq
      | some content =>
        by_cases hurl : env.validURL (env.imageProcessingServerURL ++ "/image") = true
        · obtain ⟨net1, resp, heq, _⟩ := hcases content hread hurl
          rw [heq] at hreq
          simp only [List.mem_singleton] at hreq
          rw [hreq]
          exact ⟨rfl, submitRequest_no_authorization env content htok⟩
        · simp [processImage, hread, hurl] at hreq
  · intro next c s w r hauth
    simp only [authMiddleware]
    rw [if_pos (Or.inl hauth)]
  · cases hread : env.readFile filePath with
    | none => exact ⟨"failed to open file", by simp [processImage, hread]⟩
    | some o =>
      cases o with
      | none => exact ⟨"failed to copy file content", by simp [processImage, hread]⟩
      | some content =>
        by_cases hurl : env.validURL (env.imageProcessingServerURL ++ "/image") = true
        · obtain ⟨net1, resp, heq, _⟩ := hcases content hread hurl
          rw [heq]
          cases resp with
          | none => exact ⟨_, rfl⟩
          | some r1 => exact ⟨_, rfl⟩
        · exact ⟨"failed to create request", by simp [processImage, hread, hurl]⟩
  · intro content c rest hread hurl harr
    obtain ⟨net1, resp, heq, hsrv⟩ := hcases content hread hurl
    obtain ⟨hserver, body, hresp⟩ := hsrv c rest harr
    rw [heq, hresp]
    exact ⟨rfl, rfl, hserver⟩

theorem processImage_without_token_witness :
    (processImage (defaultRelay "") serverUp "photo.jpg").2.2
        = Except.error (non200 "401 Unauthorized")
      ∧ (processImage (defaultRelay "s3cret") serverUp "photo.jpg").2.1
          = [submitRequest (defaultRelay "s3cret") [1]] :=
  ⟨((processImage_without_token "" plainCodec (fun _ => []) (defaultRelay "") serverUp
      "photo.jpg" rfl rfl).2.2.2 [1] (plainCtx 0 sampleUUID) [some (plainCtx 1 [])] rfl rfl
      rfl).1,
   ((processImage_without_token "s3cret" plainCodec (fun _ => []) (defaultRelay "s3cret")
      serverUp "photo.jpg" rfl rfl).2.2.2 [1] (plainCtx 0 sampleUUID) [some (plainCtx 1 [])]
      rfl rfl rfl).2.1⟩

end Bot1
